import Mathlib

/-!
Verification of the Touria travel-planner backend (`server.js`).

The JavaScript handlers are shallowly embedded as pure Lean functions.
JSON values (the results of `JSON.parse` and the arguments of `res.json`)
are modelled by the inductive `Json` below; JavaScript numbers inside JSON
are represented by their numeric lexeme (no claim performs arithmetic on
them).  The OpenAI client is the external collaborator boundary: a handler
takes the model's text (`Option String`, `none` = no content) as a
parameter, and reports through a `modelCalled` flag whether the code path
reaches the model invocation.  The `xss` sanitizer is likewise a function
parameter.
-/

namespace Touria

/-- JSON values, as produced by `JSON.parse`.  Numbers keep their lexeme. -/
inductive Json where
  | null
  | bool (b : Bool)
  | num (lexeme : String)
  | str (s : String)
  | arr (elems : List Json)
  | obj (fields : List (String × Json))
deriving Repr

/-- JavaScript truthiness of a numeric lexeme: every JSON number whose
mantissa digits are all `0` denotes the value `0` (the exponent cannot make
it nonzero), and those are exactly the falsy numbers. -/
def numIsZero (lexeme : String) : Bool :=
  let noSign := if lexeme.toList.head? = some '-' then lexeme.toList.drop 1 else lexeme.toList
  let mantissa := noSign.takeWhile (fun c => c ≠ 'e' ∧ c ≠ 'E')
  mantissa.all (fun c => c = '0' ∨ c = '.')

/-- JavaScript truthiness of a JSON value. -/
def Json.truthy : Json → Bool
  | .null => false
  | .bool b => b
  | .num lexeme => !numIsZero lexeme
  | .str s => s ≠ ""
  | .arr _ => true
  | .obj _ => true

/-- Property read `v[key]` on a non-null JavaScript value: `none` models
`undefined`.  (A read on `null`/`undefined` throws; callers guard that.) -/
def Json.prop (v : Json) (key : String) : Option Json :=
  match v with
  | .obj fields => fields.lookup key
  | _ => none

/-- Truthiness of a possibly-`undefined` value. -/
def optTruthy : Option Json → Bool
  | none => false
  | some v => v.truthy

/-- `fields[key] = v` on a JavaScript object: overwrite the first occurrence
of the key in insertion order, else append. -/
def setField (fields : List (String × Json)) (key : String) (v : Json) :
    List (String × Json) :=
  match fields with
  | [] => [(key, v)]
  | (k, w) :: rest =>
      if k = key then (k, v) :: rest else (k, w) :: setField rest key v

/-- Prepend one parsed object member to the object built from the members to
its right, with the JavaScript duplicate-key rule: the key sits at its first
occurrence, the value comes from its last assignment. -/
def combineField (key : String) (v : Json) (fs : List (String × Json)) :
    List (String × Json) :=
  match fs.lookup key with
  | some later => (key, later) :: fs.eraseP (fun kv => kv.1 = key)
  | none => (key, v) :: fs

/-! ### `JSON.parse`

A fuel-indexed recursive-descent parser for the JSON grammar, mirroring
`JSON.parse`: optional whitespace, the six value forms, strings with the
standard escapes, numbers per the strict JSON number grammar (no leading
zeros, no bare `.5`), and rejection of trailing garbage.  Duplicate object
keys follow the JavaScript rule: the value is overwritten at the key's
first position. -/

def isJsonWs (c : Char) : Bool := c = ' ' ∨ c = '\t' ∨ c = '\n' ∨ c = '\r'

def skipWs (cs : List Char) : List Char := cs.dropWhile isJsonWs

def isDigitCh (c : Char) : Bool := '0' ≤ c ∧ c ≤ '9'

def hexVal (c : Char) : Option Nat :=
  if '0' ≤ c ∧ c ≤ '9' then some (c.toNat - 48)
  else if 'a' ≤ c ∧ c ≤ 'f' then some (c.toNat - 87)
  else if 'A' ≤ c ∧ c ≤ 'F' then some (c.toNat - 55)
  else none

/-- Body of a string literal, after the opening quote. -/
def parseStringBody : Nat → List Char → Option (List Char × List Char)
  | 0, _ => none
  | _, [] => none
  | fuel + 1, c :: rest =>
    if c = '"' then some ([], rest)
    else if c = '\\' then
      match rest with
      | [] => none
      | e :: rest2 =>
        let simple : Option Char :=
          if e = '"' then some '"'
          else if e = '\\' then some '\\'
          else if e = '/' then some '/'
          else if e = 'b' then some (Char.ofNat 8)
          else if e = 'f' then some (Char.ofNat 12)
          else if e = 'n' then some '\n'
          else if e = 'r' then some '\r'
          else if e = 't' then some '\t'
          else none
        match simple with
        | some ch =>
          match parseStringBody fuel rest2 with
          | some (tail, rem) => some (ch :: tail, rem)
          | none => none
        | none =>
          if e = 'u' then
            match rest2 with
            | h1 :: h2 :: h3 :: h4 :: rest3 =>
              match hexVal h1, hexVal h2, hexVal h3, hexVal h4 with
              | some a, some b, some c', some d =>
                match parseStringBody fuel rest3 with
                | some (tail, rem) =>
                    some (Char.ofNat (((a * 16 + b) * 16 + c') * 16 + d) :: tail, rem)
                | none => none
              | _, _, _, _ => none
            | _ => none
          else none
    else if c.toNat < 32 then none
    else
      match parseStringBody fuel rest with
      | some (tail, rem) => some (c :: tail, rem)
      | none => none

/-- A JSON number lexeme: `-? int frac? exp?`. -/
def parseNumberLexeme (cs : List Char) : Option (List Char × List Char) :=
  let (sign, cs1) :=
    match cs with
    | '-' :: rest => (['-'], rest)
    | _ => (([] : List Char), cs)
  let intPart : Option (List Char × List Char) :=
    match cs1 with
    | '0' :: rest => some (['0'], rest)
    | c :: _ =>
        if isDigitCh c then
          some (cs1.takeWhile isDigitCh, cs1.dropWhile isDigitCh)
        else none
    | [] => none
  match intPart with
  | none => none
  | some (ip, cs2) =>
    let (fp, cs3) :=
      match cs2 with
      | '.' :: rest =>
          if (rest.takeWhile isDigitCh).isEmpty then (([] : List Char), cs2)
          else ('.' :: rest.takeWhile isDigitCh, rest.dropWhile isDigitCh)
      | _ => (([] : List Char), cs2)
    -- a '.' not followed by a digit makes the whole lexeme invalid
    if cs3.head? = some '.' then none
    else
      match cs3 with
      | e :: rest =>
        if e = 'e' ∨ e = 'E' then
          let (es, rest1) :=
            match rest with
            | '+' :: r => (['+'], r)
            | '-' :: r => (['-'], r)
            | _ => (([] : List Char), rest)
          let ds := rest1.takeWhile isDigitCh
          if ds.isEmpty then none
          else some (sign ++ ip ++ fp ++ e :: es ++ ds, rest1.dropWhile isDigitCh)
        else some (sign ++ ip ++ fp, cs3)
      | [] => some (sign ++ ip ++ fp, cs3)

mutual

/-- One JSON value (leading whitespace allowed). -/
def parseVal : Nat → List Char → Option (Json × List Char)
  | 0, _ => none
  | fuel + 1, cs =>
    match skipWs cs with
    | '"' :: rest =>
        match parseStringBody (fuel + 1) rest with
        | some (body, rem) => some (.str (String.mk body), rem)
        | none => none
    | 't' :: 'r' :: 'u' :: 'e' :: rest => some (.bool true, rest)
    | 'f' :: 'a' :: 'l' :: 's' :: 'e' :: rest => some (.bool false, rest)
    | 'n' :: 'u' :: 'l' :: 'l' :: rest => some (.null, rest)
    | '[' :: rest =>
        (match skipWs rest with
        | ']' :: rem => some (.arr [], rem)
        | _ =>
          match parseElems fuel rest with
          | some (elems, rem) => some (.arr elems, rem)
          | none => none)
    | '{' :: rest =>
        (match skipWs rest with
        | '}' :: rem => some (.obj [], rem)
        | _ =>
          match parseFields fuel rest with
          | some (fields, rem) => some (.obj fields, rem)
          | none => none)
    | other =>
        match parseNumberLexeme other with
        | some (lex, rem) => some (.num (String.mk lex), rem)
        | none => none

/-- Non-empty comma-separated array elements, up to and including `]`. -/
def parseElems : Nat → List Char → Option (List Json × List Char)
  | 0, _ => none
  | fuel + 1, cs =>
    match parseVal fuel cs with
    | none => none
    | some (v, rem) =>
      match skipWs rem with
      | ',' :: rest =>
          (match parseElems fuel rest with
          | some (vs, rem2) => some (v :: vs, rem2)
          | none => none)
      | ']' :: rest => some ([v], rest)
      | _ => none

/-- Non-empty comma-separated object members, up to and including `}`. -/
def parseFields : Nat → List Char → Option (List (String × Json) × List Char)
  | 0, _ => none
  | fuel + 1, cs =>
    match skipWs cs with
    | '"' :: rest =>
      (match parseStringBody (fuel + 1) rest with
      | none => none
      | some (key, rem) =>
        match skipWs rem with
        | ':' :: rest2 =>
          (match parseVal fuel rest2 with
          | none => none
          | some (v, rem2) =>
            match skipWs rem2 with
            | ',' :: rest3 =>
                (match parseFields fuel rest3 with
                | some (fs, rem3) => some (combineField (String.mk key) v fs, rem3)
                | none => none)
            | '}' :: rest3 => some ([(String.mk key, v)], rest3)
            | _ => none)
        | _ => none)
    | _ => none

end

/-- `JSON.parse(s)`: `none` models a thrown `SyntaxError`. -/
def jsonParse (s : String) : Option Json :=
  match parseVal (2 * s.length + 4) s.toList with
  | some (v, rem) => if (skipWs rem).isEmpty then some v else none
  | none => none

/-! ### Tolerant model-output parsing (`/api/plan`)

```js
let parsed;
try { parsed = JSON.parse(text); } catch (e) {
  const m = text.match(/\{[\s\S]*\}$/);
  if (m) { try { parsed = JSON.parse(m[0]); } catch(err) { ...500 raw... } }
  else return ...500 raw...;
}
```
The regex `/\{[\s\S]*\}$/` has no alternative match positions to retry: it
matches iff the text ends with a closing brace and contains an opening
brace somewhere before it, and `match` returns the leftmost match, so
`m[0]` is the substring running from the **first** opening brace to the end
of the text. -/

/-- `text.match(/\{[\s\S]*\}$/)`: the substring from the first `\x7b` to the
final character, provided that final character is `\x7d`. -/
def extractBraced (text : String) : Option String :=
  let cs := text.toList
  if cs.getLast? = some '}' ∧ cs.contains '{' then
    some (String.mk (cs.dropWhile (fun c => c ≠ '{')))
  else none

/-- The two-stage parse of the raw model text in `/api/plan`.
`Except.error` carries the raw text that is attached to the 500 response. -/
def parseModelText (text : String) : Except String Json :=
  match jsonParse text with
  | some parsed => .ok parsed
  | none =>
    match extractBraced text with
    | some sub =>
      match jsonParse sub with
      | some parsed => .ok parsed
      | none => .error text
    | none => .error text

/-- Modelled from the spec (for comparison with `extractBraced`): "the last
top-level brace-delimited substring matching `\x7b...\x7d` anchored at the
end of the text" — the substring from the **last** opening brace to the
final closing character. -/
def lastBracedSpec (text : String) : Option String :=
  let cs := text.toList
  if cs.getLast? = some '}' ∧ cs.contains '{' then
    some (String.mk ('{' :: (cs.reverse.takeWhile (fun c => c ≠ '{')).reverse))
  else none

/-! ### JavaScript string and number helpers -/

/-- Whitespace for `String.prototype.trim` and the skipped prefix of
`parseInt` (ASCII whitespace plus NBSP; the handlers only meet ASCII). -/
def isJsWs (c : Char) : Bool :=
  c = ' ' ∨ (9 ≤ c.toNat ∧ c.toNat ≤ 13) ∨ c.toNat = 160

/-- `s.trim()`. -/
def jsTrim (s : String) : String :=
  String.mk (((s.toList.dropWhile isJsWs).reverse.dropWhile isJsWs).reverse)

/-- `parseInt(s)` with no radix argument: skip whitespace, optional sign,
hex when the digits start with `0x`/`0X`, else decimal; stop at the first
invalid character; `none` models `NaN`. -/
def jsParseInt (s : String) : Option Int :=
  let cs := s.toList.dropWhile isJsWs
  let (neg, cs1) :=
    match cs with
    | '-' :: rest => (true, rest)
    | '+' :: rest => (false, rest)
    | _ => (false, cs)
  let fromDigits (ds : List Nat) (base : Nat) : Option Int :=
    if ds.isEmpty then none
    else
      let n : Nat := ds.foldl (fun acc d => acc * base + d) 0
      some (if neg then -(n : Int) else (n : Int))
  match cs1 with
  | '0' :: x :: rest =>
      if x = 'x' ∨ x = 'X' then
        fromDigits ((rest.takeWhile (fun c => (hexVal c).isSome)).filterMap hexVal) 16
      else
        fromDigits ((cs1.takeWhile isDigitCh).map (fun c => c.toNat - 48)) 10
  | _ => fromDigits ((cs1.takeWhile isDigitCh).map (fun c => c.toNat - 48)) 10

/-- `Math.max(1, x)` on a possibly-NaN value: NaN propagates. -/
def jsMaxOne : Option Int → Option Int
  | none => none
  | some v => some (max 1 v)

/-- `Math.max(1, Math.min(50, x))` on a possibly-NaN value. -/
def clampLimit : Option Int → Option Int
  | none => none
  | some v => some (max 1 (min 50 v))

/-- The digit characters of `Number.prototype.toString(36)`:
`0`–`9` then `a`–`z`. -/
def digitChar36 (d : Nat) : Char :=
  if d < 10 then Char.ofNat (48 + d) else Char.ofNat (87 + d)

/-- Little-endian base-36 digits, fuel-indexed (any fuel ≥ n is enough). -/
def base36Go : Nat → Nat → List Nat
  | 0, _ => []
  | fuel + 1, n => if n = 0 then [] else n % 36 :: base36Go fuel (n / 36)

def base36Digits (n : Nat) : List Nat := base36Go n n

/-- `n.toString(36)` for a non-negative integer: most-significant digit
first, and `"0"` for zero. -/
def toBase36 (n : Nat) : String :=
  if n = 0 then "0"
  else String.mk ((base36Digits n).reverse.map digitChar36)

/-- The id scheme of both history-entry creation sites:
`Date.now().toString(36) + "-" + Math.random().toString(36).slice(2,8)`.
`nowMs` is the clock reading; `rand` is the slice of the random fraction's
base-36 expansion. -/
def genId (nowMs : Nat) (rand : String) : String :=
  toBase36 nowMs ++ "-" ++ rand

/-- Uppercase hex digit. -/
def hexDigitUpper (d : Nat) : Char :=
  if d < 10 then Char.ofNat (48 + d) else Char.ofNat (55 + d)

/-- UTF-8 bytes of a code point. -/
def utf8Bytes (n : Nat) : List Nat :=
  if n < 128 then [n]
  else if n < 2048 then [192 + n / 64, 128 + n % 64]
  else if n < 65536 then [224 + n / 4096, 128 + (n / 64) % 64, 128 + n % 64]
  else [240 + n / 262144, 128 + (n / 4096) % 64, 128 + (n / 64) % 64, 128 + n % 64]

/-- `encodeURIComponent`: unreserved characters pass through, every other
character is percent-encoded byte-by-byte in uppercase hex. -/
def encodeURIComponent (s : String) : String :=
  String.mk (s.toList.flatMap (fun c =>
    let unreserved :=
      ('A' ≤ c ∧ c ≤ 'Z') ∨ ('a' ≤ c ∧ c ≤ 'z') ∨ ('0' ≤ c ∧ c ≤ '9') ∨
      c = '-' ∨ c = '_' ∨ c = '.' ∨ c = '!' ∨ c = '~' ∨ c = '*' ∨
      c = Char.ofNat 39 ∨ c = '(' ∨ c = ')'
    if unreserved then [c]
    else (utf8Bytes c.toNat).flatMap (fun b =>
      ['%', hexDigitUpper (b / 16), hexDigitUpper (b % 16)])))

mutual

/-- `String(v)` for a JSON value (numbers are rendered by their stored
lexeme; the handlers only convert strings this way in practice). -/
def jsToString : Json → String
  | .null => "null"
  | .bool b => if b then "true" else "false"
  | .num lexeme => lexeme
  | .str s => s
  | .arr elems => String.intercalate "," (jsToStringList elems)
  | .obj _ => "[object Object]"

/-- Array elements render as themselves, except `null` renders empty. -/
def jsToStringList : List Json → List String
  | [] => []
  | .null :: rest => "" :: jsToStringList rest
  | v :: rest => jsToString v :: jsToStringList rest

end

/-! ### Data model -/

/-- A history record as both creation sites build it.  `timestamp` is the
epoch-milliseconds instant denoted by the stored ISO string (the ISO
rendering is order-isomorphic to it). -/
structure HistoryEntry where
  id : String
  userHash : String
  timestamp : Nat
  request : Json
  response : Json
deriving Repr

/-! ### POST /api/plan -/

def allowedPlanKeys : List String :=
  ["destination", "days", "budget", "interests", "group"]

/-- The sanitized value of one body field:
`typeof v === "string" ? xss(v.trim()) : v`. -/
def sanitizeVal (sanitize : String → String) : Json → Json
  | .str s => .str (sanitize (jsTrim s))
  | v => v

/-- The sanitation loop: `req.body[k] = xss(req.body[k].trim())` for every
string-valued key; other values are untouched. -/
def sanitizeBody (sanitize : String → String) (body : List (String × Json)) :
    List (String × Json) :=
  body.map (fun kv => (kv.1, sanitizeVal sanitize kv.2))

/-- The normalized request record `{destination, days, budget, interests,
group}`; keys whose value is `undefined` are dropped by serialization. -/
def presentFields (b : List (String × Json)) : List (String × Json) :=
  allowedPlanKeys.filterMap (fun k => (b.lookup k).map (fun v => (k, v)))

/-- The synthesized default image URL:
`https://source.unsplash.com/800x500/?` + `encodeURIComponent(destination)`. -/
def unsplashUrlOf (destination : Json) : String :=
  "https://source.unsplash.com/800x500/?" ++ encodeURIComponent (jsToString destination)

/-- Negation of the guard on line 140: the parsed object already carries a
non-empty `images` array, i.e.
`parsed.images && Array.isArray(parsed.images) && parsed.images.length > 0`. -/
def hasNonemptyImages (fields : List (String × Json)) : Bool :=
  match fields.lookup "images" with
  | some (.arr (_ :: _)) => true
  | _ => false

/-- Lines 140–142 of `server.js`, including the JavaScript object-model
corners, composed with `res.json` serialization.  `none` models a thrown
`TypeError` (reading `parsed.images` on `null`, or assigning a property to
a primitive in strict mode), which the enclosing `try` turns into a 500.
On an array, the assignment lands on the array object but is dropped again
by JSON serialization. -/
def imagesDefaulting (destination : Json) (parsed : Json) : Option Json :=
  match parsed with
  | .null => none
  | .bool _ => none
  | .num _ => none
  | .str _ => none
  | .arr elems => some (.arr elems)
  | .obj fields =>
    if hasNonemptyImages fields then some (.obj fields)
    else
      some (.obj (setField fields "images"
        (.arr [.str (unsplashUrlOf destination)])))

structure PlanOut where
  status : Nat
  body : Json
  modelCalled : Bool
  history : List HistoryEntry
deriving Repr

/-- The `/api/plan` handler.  `sanitize` is the `xss` collaborator;
`modelText` is `completion.choices?.[0]?.message?.content` (`none` for no
content); `userHash` is `hashIp(getClientIp(req))`; `nowMs`/`rand` feed the
id scheme; `history` is the stored log. -/
def planHandler (sanitize : String → String) (body : List (String × Json))
    (modelText : Option String) (userHash : String) (nowMs : Nat)
    (rand : String) (history : List HistoryEntry) : PlanOut :=
  if ¬ (body.map Prod.fst).all (fun k => allowedPlanKeys.contains k) then
    ⟨400, .obj [("error", .str "Invalid fields")], false, history⟩
  else
    let b := sanitizeBody sanitize body
    let destination := b.lookup "destination"
    if ¬ optTruthy destination then
      ⟨400, .obj [("error", .str "Destination required")], false, history⟩
    else
      match modelText with
      | none => ⟨502, .obj [("error", .str "No response from model")], true, history⟩
      | some text =>
        if text = "" then
          ⟨502, .obj [("error", .str "No response from model")], true, history⟩
        else
          match parseModelText text with
          | .error raw =>
              ⟨500, .obj [("error", .str "Model output not valid JSON"),
                          ("raw", .str raw)], true, history⟩
          | .ok parsed =>
            match imagesDefaulting (destination.getD .null) parsed with
            | none => ⟨500, .obj [("error", .str "Internal server error")], true, history⟩
            | some parsed2 =>
              let entry : HistoryEntry :=
                { id := genId nowMs rand
                  userHash := userHash
                  timestamp := nowMs
                  request := .obj (presentFields b)
                  response := parsed2 }
              ⟨200, parsed2, true, history ++ [entry]⟩

/-! ### POST /api/chat -/

/-- One element of the sanitized conversation: `role` may be `undefined`
(`none`); `content` is always a string after sanitation. -/
structure ChatMsg where
  role : Option Json
  content : Json
deriving Repr

/-- `m => ({ role: m.role, content: typeof m.content === "string" ?
xss(m.content) : "" })`.  `none` models the `TypeError` thrown by reading
`m.role` on a `null` element. -/
def sanitizeMsg (sanitize : String → String) (m : Json) : Option ChatMsg :=
  match m with
  | .null => none
  | m => some
      { role := m.prop "role"
        content :=
          match m.prop "content" with
          | some (.str s) => .str (sanitize s)
          | _ => .str "" }

/-- The fixed system instruction, optionally extended with the group
context. -/
def chatSystemContent (group : Option Json) : String :=
  "Eres un asistente de viajes profesional. Si el usuario menciona un destino y pide un itinerario, genera un JSON compacto que pueda guardarse en el historial." ++
    (if optTruthy group then " Contexto del grupo: " ++ jsToString (group.getD .null)
     else "")

/-- `conversation = [system, ...sanitized]`: exactly what is sent to the
model provider. -/
def chatConversation (group : Option Json) (sanitized : List ChatMsg) :
    List ChatMsg :=
  { role := some (.str "system"), content := .str (chatSystemContent group) } :: sanitized

/-- `sanitized.slice(-1)[0]?.content || ""`. -/
def lastSnippet (sanitized : List ChatMsg) : String :=
  match sanitized.getLast? with
  | some m => match m.content with | .str s => s | _ => ""
  | none => ""

/-- Whether the chat flow appends to history:
`if (parsed && parsed.itinerary)`. -/
def chatAppends (parsed : Option Json) : Bool :=
  match parsed with
  | some p => p.truthy ∧ optTruthy (p.prop "itinerary")
  | none => false

structure ChatOut where
  status : Nat
  body : Json
  modelCalled : Bool
  history : List HistoryEntry
deriving Repr

/-- The `/api/chat` handler.  `messages`/`group` are the destructured body
fields (`none` = absent). -/
def chatHandler (sanitize : String → String) (messages : Option Json)
    (group : Option Json) (modelText : Option String) (userHash : String)
    (nowMs : Nat) (rand : String) (history : List HistoryEntry) : ChatOut :=
  match messages with
  | some (.arr ms) =>
    (match ms.mapM (sanitizeMsg sanitize) with
    | none => ⟨500, .obj [("error", .str "Internal server error")], false, history⟩
    | some sanitized =>
      match modelText with
      | none => ⟨502, .obj [("error", .str "No response from model")], true, history⟩
      | some text =>
        if text = "" then
          ⟨502, .obj [("error", .str "No response from model")], true, history⟩
        else
          let parsed := jsonParse text
          let respBody : Json :=
            .obj [("text", .str text), ("parsed", parsed.getD .null)]
          if chatAppends parsed then
            let entry : HistoryEntry :=
              { id := genId nowMs rand
                userHash := userHash
                timestamp := nowMs
                request := .obj ([("chat", .bool true)] ++
                  (match group with | some g => [("group", g)] | none => []) ++
                  [("snippet", .str (lastSnippet sanitized))])
                response := (jsonParse text).getD .null }
            ⟨200, respBody, true, history ++ [entry]⟩
          else
            ⟨200, respBody, true, history⟩)
  | _ => ⟨400, .obj [("error", .str "messages array required")], false, history⟩

/-! ### GET /api/history -/

/-- `req.query.x || dflt`: an absent or empty query value falls back. -/
def queryDefault (q : Option String) (dflt : String) : String :=
  match q with
  | some s => if s = "" then dflt else s
  | none => dflt

/-- `Math.max(1, parseInt(req.query.page || "1"))`. -/
def effPage (q : Option String) : Option Int :=
  jsMaxOne (jsParseInt (queryDefault q "1"))

/-- `Math.max(1, Math.min(50, parseInt(req.query.limit || "10")))`. -/
def effLimit (q : Option String) : Option Int :=
  clampLimit (jsParseInt (queryDefault q "10"))

/-- Stable insertion into a timestamp-descending list (ties keep the
existing order, as the engine's stable `sort` does). -/
def insertTsDesc (e : HistoryEntry) : List HistoryEntry → List HistoryEntry
  | [] => [e]
  | x :: rest =>
      if e.timestamp ≤ x.timestamp then x :: insertTsDesc e rest
      else e :: x :: rest

/-- `sort((a,b) => new Date(b.timestamp) - new Date(a.timestamp))`. -/
def sortTsDesc (l : List HistoryEntry) : List HistoryEntry :=
  l.foldl (fun acc e => insertTsDesc e acc) []

/-- `Math.max(1, Math.ceil(total / limit))` for a possibly-NaN limit
(the clamped limit is in `[1,50]` whenever it is a number). -/
def totalPagesOf (total : Nat) (limit : Option Int) : Option Int :=
  match limit with
  | none => none
  | some l => some (max 1 (((total : Int) + l - 1) / l))

/-- `ToIntegerOrInfinity` + clamping of one `slice` argument
(NaN becomes 0, negatives count from the end). -/
def sliceIndex (len : Nat) (v : Option Int) : Nat :=
  match v with
  | none => 0
  | some i => if i < 0 then ((len : Int) + i).toNat else min i.toNat len

/-- `l.slice(start, end)` with possibly-NaN bounds. -/
def jsSlice (l : List HistoryEntry) (s e : Option Int) : List HistoryEntry :=
  let a := sliceIndex l.length s
  let b := sliceIndex l.length e
  (l.drop a).take (b - a)

structure HistoryPage where
  page : Option Int
  totalPages : Option Int
  total : Nat
  results : List HistoryEntry
deriving Repr

/-- The `/api/history` handler (`none` in an `Option Int` models NaN). -/
def historyHandler (history : List HistoryEntry) (userHash : String)
    (pageQ limitQ : Option String) : HistoryPage :=
  let page := effPage pageQ
  let limit := effLimit limitQ
  let mine := sortTsDesc (history.filter (fun e => e.userHash = userHash))
  let total := mine.length
  let totalPages := totalPagesOf total limit
  let start : Option Int :=
    match page, limit with
    | some p, some l => some ((p - 1) * l)
    | _, _ => none
  let stop : Option Int :=
    match start, limit with
    | some s, some l => some (s + l)
    | _, _ => none
  { page := page, totalPages := totalPages, total := total,
    results := jsSlice mine start stop }

/-! ### DELETE /api/history/:id -/

inductive DeleteOutcome where
  | notFound
  | forbidden
  | success
deriving DecidableEq, Repr

structure DeleteOut where
  outcome : DeleteOutcome
  history : List HistoryEntry
  wrote : Bool
deriving Repr

/-- The `/api/history/:id` delete handler: `findIndex` by id, 404 when
absent, 403 on a hash mismatch (before any mutation), else `splice` the
found index out and persist.  Removing the first entry whose id matches is
exactly `eraseP`. -/
def deleteHandler (history : List HistoryEntry) (id userHash : String) :
    DeleteOut :=
  match history.find? (fun e => e.id = id) with
  | none => ⟨.notFound, history, false⟩
  | some e =>
      if e.userHash ≠ userHash then ⟨.forbidden, history, false⟩
      else ⟨.success, history.eraseP (fun e => e.id = id), true⟩

/-! ### GET /api/trending -/

/-- `it.request && (it.request.destination || (it.request.chat &&
it.response?.summary)) || null`, followed by the `if (dest)` guard:
`some` holds the counted truthy value. -/
def trendDest (e : HistoryEntry) : Option Json :=
  if ¬ e.request.truthy then none
  else
    let d := e.request.prop "destination"
    if optTruthy d then d
    else if optTruthy (e.request.prop "chat") then
      let s := e.response.prop "summary"
      if optTruthy s then s else none
    else none

/-- `String(dest).toLowerCase().trim().split(",")[0]` (ASCII lowering; the
stored destinations are handled alike by both). -/
def normalizeDest (d : Json) : String :=
  let lowered := String.mk ((jsToString d).toList.map Char.toLower)
  String.mk ((jsTrim lowered).toList.takeWhile (fun c => c ≠ ','))

/-- `counts[key] = (counts[key]||0) + 1`, keeping first-seen key order.
(For integer-like keys the engine would order them first; no claim depends
on the order of the computed list.) -/
def bumpCount (counts : List (String × Nat)) (k : String) :
    List (String × Nat) :=
  match counts with
  | [] => [(k, 1)]
  | (k2, n) :: rest =>
      if k2 = k then (k2, n + 1) :: rest else (k2, n) :: bumpCount rest k

def countsOf (history : List HistoryEntry) : List (String × Nat) :=
  history.foldl
    (fun acc e =>
      match trendDest e with
      | some d => bumpCount acc (normalizeDest d)
      | none => acc)
    []

def countOfKey (counts : List (String × Nat)) (k : String) : Nat :=
  (counts.lookup k).getD 0

/-- Stable insertion into a count-descending key list. -/
def insertCountDesc (counts : List (String × Nat)) (k : String) :
    List String → List String
  | [] => [k]
  | x :: rest =>
      if countOfKey counts k ≤ countOfKey counts x then
        x :: insertCountDesc counts k rest
      else k :: x :: rest

/-- `Object.keys(counts).sort((a,b) => counts[b] - counts[a])` (stable). -/
def sortedTrendKeys (counts : List (String × Nat)) : List String :=
  (counts.map Prod.fst).foldl (fun acc k => insertCountDesc counts k acc) []

structure TrendItem where
  name : String
  tag : String
deriving DecidableEq, Repr

/-- `{ name: k.charAt(0).toUpperCase() + k.slice(1), tag: k }`. -/
def trendItemOf (k : String) : TrendItem :=
  { name :=
      match k.toList with
      | [] => ""
      | c :: rest => String.mk (c.toUpper :: rest)
    tag := k }

/-- The up-to-20-element list the computation path retains in the cache. -/
def trendingList (history : List HistoryEntry) : List TrendItem :=
  ((sortedTrendKeys (countsOf history)).take 20).map trendItemOf

structure TrendingCache where
  date : Option String
  list : Option (List TrendItem)
deriving Repr

structure TrendingOut where
  results : List TrendItem
  cache : TrendingCache
  computed : Bool
deriving Repr

/-- The `/api/trending` handler.  On a same-day cache hit the stored list
is returned as-is; on the computation path the cache keeps up to 20 items
and the response is `list.slice(0,10)`. -/
def trendingHandler (cache : TrendingCache) (history : List HistoryEntry)
    (today : String) : TrendingOut :=
  match cache.list with
  | some l =>
      if cache.date = some today then ⟨l, cache, false⟩
      else
        let list := trendingList history
        ⟨list.take 10, ⟨some today, some list⟩, true⟩
  | none =>
      let list := trendingList history
      ⟨list.take 10, ⟨some today, some list⟩, true⟩

/-! ### GET /api/banner -/

def bannerFallback : String :=
  "Explora nuevos destinos con confianza y curiosidad."

structure BannerCache where
  date : Option String
  text : Option String
deriving Repr

structure BannerOut where
  text : String
  cache : BannerCache
  modelCalled : Bool
deriving Repr

/-- The `/api/banner` handler on its non-throwing path:
`completion.choices?.[0]?.message?.content?.trim() || fallback`, cached per
day. -/
def bannerHandler (cache : BannerCache) (modelText : Option String)
    (today : String) : BannerOut :=
  match cache.text with
  | some t =>
      if cache.date = some today ∧ t ≠ "" then ⟨t, cache, false⟩
      else bannerCompute modelText today
  | none => bannerCompute modelText today
where
  bannerCompute (modelText : Option String) (today : String) : BannerOut :=
    let text :=
      match modelText with
      | some s => let t := jsTrim s; if t = "" then bannerFallback else t
      | none => bannerFallback
    ⟨text, ⟨some today, some text⟩, true⟩

/-! ### Statement helpers and concrete inputs -/

/-- A history store with eleven distinct destinations, each seen once. -/
def demoStore : List HistoryEntry :=
  [⟨"i01", "H", 1, .obj [("destination", .str "a")], .null⟩,
   ⟨"i02", "H", 2, .obj [("destination", .str "b")], .null⟩,
   ⟨"i03", "H", 3, .obj [("destination", .str "c")], .null⟩,
   ⟨"i04", "H", 4, .obj [("destination", .str "d")], .null⟩,
   ⟨"i05", "H", 5, .obj [("destination", .str "e")], .null⟩,
   ⟨"i06", "H", 6, .obj [("destination", .str "f")], .null⟩,
   ⟨"i07", "H", 7, .obj [("destination", .str "g")], .null⟩,
   ⟨"i08", "H", 8, .obj [("destination", .str "h")], .null⟩,
   ⟨"i09", "H", 9, .obj [("destination", .str "i")], .null⟩,
   ⟨"i10", "H", 10, .obj [("destination", .str "j")], .null⟩,
   ⟨"i11", "H", 11, .obj [("destination", .str "k")], .null⟩]

/-- Inverse of `digitChar36` on the 36 digit characters. -/
def charVal36 (c : Char) : Nat :=
  if c.toNat ≤ 57 then c.toNat - 48 else c.toNat - 87

/-! ### Shared lemmas -/

theorem lookup_sanitizeBody (f : String → String) (b : List (String × Json))
    (k : String) :
    (sanitizeBody f b).lookup k = (b.lookup k).map (sanitizeVal f) := by
  induction b with
  | nil => rfl
  | cons kv rest ih =>
      simp only [sanitizeBody, List.map_cons, List.lookup] at ih ⊢
      cases hbe : k == kv.1
      · simpa [hbe] using ih
      · simp [hbe]

theorem lookup_setField (fields : List (String × Json)) (k : String) (v : Json) :
    (setField fields k v).lookup k = some v := by
  induction fields with
  | nil => simp [setField, List.lookup]
  | cons kv rest ih =>
      by_cases h : kv.1 = k
      · simp [setField, List.lookup, h]
      · simp [setField, List.lookup, h, beq_false_of_ne (Ne.symm h)]
        exact ih

theorem find_eraseP_decomp {α : Type} (p : α → Bool) :
    ∀ (l : List α) (e : α), l.find? p = some e →
      ∃ l1 l2, l = l1 ++ e :: l2 ∧ (∀ x ∈ l1, p x = false) ∧
        l.eraseP p = l1 ++ l2 := by
  intro l
  induction l with
  | nil => intro e h; simp [List.find?] at h
  | cons x rest ih =>
      intro e h
      by_cases hx : p x
      · refine ⟨[], rest, ?_, by simp, ?_⟩
        · simp [List.find?, hx] at h
          simp [h]
        · simp [List.eraseP_cons, hx]
      · simp [List.find?_cons_of_neg _ (by simpa using hx)] at h
        obtain ⟨l1, l2, hsplit, hall, herase⟩ := ih e h
        refine ⟨x :: l1, l2, by simp [hsplit], ?_, ?_⟩
        · intro y hy
          rcases List.mem_cons.mp hy with rfl | hy
          · simpa using hx
          · exact hall y hy
        · simp [List.eraseP_cons, hx, herase]

/-! ### Claim theorems -/

/-- C5: for every DELETE /api/history/:id request, if no stored entry has
the requested id the result is NotFound with the store untouched and no
write; if the matching entry's userHash differs from the requester's hash
the result is Forbidden, no entry is removed and no write is performed;
only when id and hash both match is the (first) matching entry removed and
the store persisted. -/
theorem delete_owner_scoped (history : List HistoryEntry) (id userHash : String) :
    ((∀ e ∈ history, e.id ≠ id) →
       deleteHandler history id userHash = ⟨.notFound, history, false⟩) ∧
    (∀ e, history.find? (fun x => x.id = id) = some e → e.userHash ≠ userHash →
       deleteHandler history id userHash = ⟨.forbidden, history, false⟩) ∧
    (∀ e, history.find? (fun x => x.id = id) = some e → e.userHash = userHash →
       (deleteHandler history id userHash).outcome = .success ∧
       (deleteHandler history id userHash).wrote = true ∧
       ∃ l1 l2, history = l1 ++ e :: l2 ∧ (∀ x ∈ l1, x.id ≠ id) ∧
         (deleteHandler history id userHash).history = l1 ++ l2) := by
  refine ⟨?_, ?_, ?_⟩
  · intro hnone
    have hfind : history.find? (fun x => x.id = id) = none := by
      apply List.find?_eq_none.mpr
      intro x hx
      simp [hnone x hx]
    simp [deleteHandler, hfind]
  · intro e hfind hne
    simp [deleteHandler, hfind, hne]
  · intro e hfind heq
    obtain ⟨l1, l2, hsplit, hall, herase⟩ :=
      find_eraseP_decomp (fun x => x.id = id) history e hfind
    refine ⟨?_, ?_, l1, l2, hsplit, ?_, ?_⟩
    · simp [deleteHandler, hfind, heq]
    · simp [deleteHandler, hfind, heq]
    · intro x hx
      simpa using hall x hx
    · simp [deleteHandler, hfind, heq, herase]

/-- Witness for C5: the three branches at concrete stores. -/
theorem delete_owner_scoped_witness :
    deleteHandler [⟨"a", "H1", 1, .null, .null⟩] "b" "H1" =
      ⟨.notFound, [⟨"a", "H1", 1, .null, .null⟩], false⟩ ∧
    deleteHandler [⟨"a", "H1", 1, .null, .null⟩] "a" "H2" =
      ⟨.forbidden, [⟨"a", "H1", 1, .null, .null⟩], false⟩ ∧
    (deleteHandler [⟨"a", "H1", 1, .null, .null⟩] "a" "H1").outcome = .success := by
  refine ⟨?_, ?_, ?_⟩
  · exact (delete_owner_scoped [⟨"a", "H1", 1, .null, .null⟩] "b" "H1").1
      (by intro e he; simp at he; simp [he])
  · exact (delete_owner_scoped [⟨"a", "H1", 1, .null, .null⟩] "a" "H2").2.1
      ⟨"a", "H1", 1, .null, .null⟩ (by simp [List.find?]) (by simp)
  · exact ((delete_owner_scoped [⟨"a", "H1", 1, .null, .null⟩] "a" "H1").2.2
      ⟨"a", "H1", 1, .null, .null⟩ (by simp [List.find?]) rfl).1

theorem optTruthy_map_sanitize (f : String → String) (hf : f "" = "")
    (o : Option Json) (h : optTruthy o = false) :
    optTruthy (o.map (sanitizeVal f)) = false := by
  cases o with
  | none => rfl
  | some v =>
      cases v with
      | str s =>
          simp [optTruthy, Json.truthy] at h
          subst h
          have htrim : jsTrim "" = "" := rfl
          simp [sanitizeVal, htrim, hf, optTruthy, Json.truthy]
      | null => simpa [sanitizeVal] using h
      | bool b => simpa [sanitizeVal] using h
      | num l => simpa [sanitizeVal] using h
      | arr l => simpa [sanitizeVal] using h
      | obj l => simpa [sanitizeVal] using h

/-- C3: a /api/plan body with any key outside
{destination, days, budget, interests, group} is rejected with
`Invalid fields`, and a body (with allowed keys) whose `destination` is
absent or falsy is rejected with `Destination required`; in both cases the
handler returns before the model call (`modelCalled = false`) and the
store is untouched.  The sanitizer is only assumed to keep the empty
string empty, which `xss` does. -/
theorem plan_validates_before_model (sanitize : String → String)
    (body : List (String × Json)) (modelText : Option String)
    (userHash : String) (nowMs : Nat) (rand : String)
    (history : List HistoryEntry) (hsan : sanitize "" = "") :
    (¬ (body.map Prod.fst).all (fun k => allowedPlanKeys.contains k) →
       planHandler sanitize body modelText userHash nowMs rand history =
         ⟨400, .obj [("error", .str "Invalid fields")], false, history⟩) ∧
    ((body.map Prod.fst).all (fun k => allowedPlanKeys.contains k) →
     optTruthy (body.lookup "destination") = false →
       planHandler sanitize body modelText userHash nowMs rand history =
         ⟨400, .obj [("error", .str "Destination required")], false, history⟩) := by
  constructor
  · intro h
    simp only [planHandler]
    rw [if_pos h]
  · intro h1 h2
    have hpost : optTruthy ((sanitizeBody sanitize body).lookup "destination") = false := by
      rw [lookup_sanitizeBody]
      exact optTruthy_map_sanitize sanitize hsan _ h2
    simp only [planHandler]
    rw [if_neg (fun hc => hc h1), if_pos (by simp [hpost])]

/-- Witness for C3: an unrecognized key and a missing destination, both
rejected with no model invocation. -/
theorem plan_validates_before_model_witness :
    planHandler id [("hack", .str "x")] (some "ok") "H" 1 "r" [] =
      ⟨400, .obj [("error", .str "Invalid fields")], false, []⟩ ∧
    planHandler id [("days", .str "3")] (some "ok") "H" 1 "r" [] =
      ⟨400, .obj [("error", .str "Destination required")], false, []⟩ := by
  constructor
  · exact (plan_validates_before_model id [("hack", .str "x")] (some "ok")
      "H" 1 "r" [] rfl).1 (by decide)
  · exact (plan_validates_before_model id [("days", .str "3")] (some "ok")
      "H" 1 "r" [] rfl).2 (by decide) (by decide)

/-- C1 counterexample: the claim fails as stated, on two non-object parses.
The model output `"null"` parses successfully (`JSON.parse("null")` yields
`null`), the request has a non-empty destination, yet the handler's read of
`parsed.images` throws, the response is the 500 `Internal server error`
object, and it carries no `images` list at all.  The model output `"[1,2]"`
also parses successfully; the strict-mode property assignment on the array
object succeeds but serialization drops it, so the response is 200 with the
bare array and again no `images` list. -/
theorem plan_images_cex :
    parseModelText "null" = .ok .null ∧
    (planHandler id [("destination", .str "Tokyo")] (some "null")
        "H" 1 "r" []).status = 500 ∧
    (planHandler id [("destination", .str "Tokyo")] (some "null")
        "H" 1 "r" []).body =
      .obj [("error", .str "Internal server error")] ∧
    parseModelText "[1,2]" = .ok (.arr [.num "1", .num "2"]) ∧
    (planHandler id [("destination", .str "Tokyo")] (some "[1,2]")
        "H" 1 "r" []).status = 200 ∧
    (planHandler id [("destination", .str "Tokyo")] (some "[1,2]")
        "H" 1 "r" []).body = .arr [.num "1", .num "2"] ∧
    (planHandler id [("destination", .str "Tokyo")] (some "[1,2]")
        "H" 1 "r" []).body.prop "images" = none := by
  exact ⟨rfl, rfl, rfl, rfl, rfl, rfl, rfl⟩

/-- C1 as amended: for every /api/plan request with allowed keys and a
truthy destination whose model output parses successfully **to a JSON
object**, the 200 payload carries a non-empty `images` list; when the
parsed object lacked a non-empty `images` array, that list is exactly the
one synthesized default image-search URL parameterized by the URL-encoded
destination; when a non-empty `images` array was present, the payload is
returned unchanged. -/
theorem plan_images_default (sanitize : String → String)
    (body : List (String × Json)) (text : String) (userHash : String)
    (nowMs : Nat) (rand : String) (history : List HistoryEntry)
    (fields : List (String × Json)) (out : PlanOut)
    (hkeys : (body.map Prod.fst).all (fun k => allowedPlanKeys.contains k))
    (hdest : optTruthy ((sanitizeBody sanitize body).lookup "destination"))
    (htext : text ≠ "")
    (hparse : parseModelText text = .ok (.obj fields))
    (hout : out = planHandler sanitize body (some text) userHash nowMs rand history) :
    out.status = 200 ∧
    (∃ imgs, out.body.prop "images" = some (.arr imgs) ∧ imgs ≠ []) ∧
    (hasNonemptyImages fields = true → out.body = .obj fields) ∧
    (hasNonemptyImages fields = false →
       out.body.prop "images" = some (.arr [.str (unsplashUrlOf
         (((sanitizeBody sanitize body).lookup "destination").getD .null))])) := by
  have hred : out =
      (match imagesDefaulting
          (((sanitizeBody sanitize body).lookup "destination").getD .null)
          (.obj fields) with
        | none => ⟨500, .obj [("error", .str "Internal server error")], true, history⟩
        | some parsed2 =>
          ⟨200, parsed2, true, history ++
            [{ id := genId nowMs rand, userHash := userHash, timestamp := nowMs,
               request := .obj (presentFields (sanitizeBody sanitize body)),
               response := parsed2 }]⟩ : PlanOut) := by
    rw [hout]
    simp only [planHandler]
    rw [if_neg (fun hc => hc hkeys), if_neg (by simp [hdest]), if_neg htext, hparse]
  cases hni : hasNonemptyImages fields with
  | true =>
      have himgs : ∃ x xs, fields.lookup "images" = some (.arr (x :: xs)) := by
        unfold hasNonemptyImages at hni
        split at hni
        · next x xs heq => exact ⟨x, xs, heq⟩
        · exact absurd hni (by simp)
      obtain ⟨x, xs, hlk⟩ := himgs
      rw [hred]
      simp only [imagesDefaulting, hni, if_true]
      refine ⟨trivial, ⟨x :: xs, ?_, by simp⟩, fun _ => trivial, fun hc => by simp at hc⟩
      simpa [Json.prop] using hlk
  | false =>
      rw [hred]
      simp only [imagesDefaulting, hni, Bool.false_eq_true, if_false]
      refine ⟨trivial, ?_, fun hc => by simp at hc, fun _ => ?_⟩
      · exact ⟨[.str (unsplashUrlOf
          (((sanitizeBody sanitize body).lookup "destination").getD .null))],
          by simpa [Json.prop] using lookup_setField fields "images" _, by simp⟩
      · simpa [Json.prop] using lookup_setField fields "images" _

/-- Witness for C1's amended theorem: a commented model output without an
`images` array yields a 200 payload whose `images` list is exactly the
default Unsplash URL for the destination. -/
theorem plan_images_default_witness :
    (planHandler id [("destination", .str "Tokyo")]
        (some "hi \x7b\"summary\":\"s\"\x7d") "H" 1 "r" []).status = 200 ∧
    ∃ imgs,
      (planHandler id [("destination", .str "Tokyo")]
          (some "hi \x7b\"summary\":\"s\"\x7d") "H" 1 "r" []).body.prop "images" =
        some (.arr imgs) ∧ imgs ≠ [] := by
  have h := plan_images_default id [("destination", .str "Tokyo")]
    "hi \x7b\"summary\":\"s\"\x7d" "H" 1 "r" [] [("summary", .str "s")]
    (planHandler id [("destination", .str "Tokyo")]
      (some "hi \x7b\"summary\":\"s\"\x7d") "H" 1 "r" [])
    rfl rfl (by decide) rfl rfl
  exact ⟨h.1, h.2.1⟩

theorem toList_append (s t : String) : (s ++ t).toList = s.toList ++ t.toList := by
  cases s; cases t; rfl

theorem dropWhile_ne_append (c : Char) (l1 l2 : List Char)
    (h : ∀ x ∈ l1, x ≠ c) :
    (l1 ++ l2).dropWhile (fun x => x ≠ c) = l2.dropWhile (fun x => x ≠ c) := by
  induction l1 with
  | nil => rfl
  | cons x rest ih =>
      have hx : x ≠ c := h x (by simp)
      simp only [List.cons_append, List.dropWhile_cons]
      rw [if_pos (by simpa using hx)]
      exact ih (fun y hy => h y (by simp [hy]))

/-- What the regex extraction does on commentary-then-object text: when the
prefix is brace-free, the object starts with a brace and the text ends with
a closing brace, the matched substring is exactly the trailing object. -/
theorem extractBraced_concat (pre objTxt : String)
    (hpre : ∀ x ∈ pre.toList, x ≠ '{')
    (hhead : objTxt.toList.head? = some '{')
    (hlast : (pre ++ objTxt).toList.getLast? = some '}') :
    extractBraced (pre ++ objTxt) = some objTxt := by
  obtain ⟨tl, htl⟩ : ∃ tl, objTxt.toList = '{' :: tl := by
    cases ho : objTxt.toList with
    | nil => rw [ho] at hhead; simp at hhead
    | cons y ys =>
        rw [ho] at hhead
        simp at hhead
        exact ⟨ys, by rw [hhead]⟩
  unfold extractBraced
  rw [toList_append, if_pos ?_]
  · rw [dropWhile_ne_append _ _ _ hpre, htl]
    simp only [List.dropWhile_cons]
    rw [if_neg (by simp)]
    rw [← htl]
    cases objTxt
    rfl
  · constructor
    · rw [← toList_append]; exact hlast
    · rw [htl]
      simp

/-- C2 counterexample: for text whose leading commentary itself contains a
brace, the claim predicts that the trailing JSON object is extracted and
parsed, but the regex match starts at the *first* opening brace, the
extracted substring is not valid JSON, and the request fails with the raw
text attached — even though the trailing object parses on its own (and the
spec-worded last-brace extraction would have found it). -/
theorem parse_extraction_cex :
    parseModelText "a\x7bb\x7d \x7b\"k\":1\x7d" =
      .error "a\x7bb\x7d \x7b\"k\":1\x7d" ∧
    extractBraced "a\x7bb\x7d \x7b\"k\":1\x7d" =
      some "\x7bb\x7d \x7b\"k\":1\x7d" ∧
    lastBracedSpec "a\x7bb\x7d \x7b\"k\":1\x7d" = some "\x7b\"k\":1\x7d" ∧
    jsonParse "\x7b\"k\":1\x7d" = some (.obj [("k", .num "1")]) :=
  ⟨rfl, rfl, rfl, rfl⟩

/-- C2 as amended: parsing proceeds in two stages — (1) the whole text, if
valid JSON, is used directly; (2) otherwise the substring from the *first*
opening brace to the end of the text (which must end with a closing brace)
is extracted and parsed, so text with *brace-free* leading commentary
followed by a trailing JSON object yields only the trailing object; (3) if
both stages fail, the request fails with an error carrying the original
raw text. -/
theorem parse_two_stage (text : String) :
    (∀ j, jsonParse text = some j → parseModelText text = .ok j) ∧
    (∀ pre objTxt j, text = pre ++ objTxt →
       jsonParse text = none →
       (∀ x ∈ pre.toList, x ≠ '{') →
       objTxt.toList.head? = some '{' →
       text.toList.getLast? = some '}' →
       jsonParse objTxt = some j →
       parseModelText text = .ok j) ∧
    (jsonParse text = none →
       (∀ sub, extractBraced text = some sub → jsonParse sub = none) →
       parseModelText text = .error text) := by
  refine ⟨?_, ?_, ?_⟩
  · intro j h
    simp only [parseModelText, h]
  · intro pre objTxt j hsplit hnone hpre hhead hlast hj
    subst hsplit
    simp only [parseModelText, hnone,
      extractBraced_concat pre objTxt hpre hhead hlast, hj]
  · intro hnone hsub
    simp only [parseModelText, hnone]
    cases hex : extractBraced text with
    | none => simp only [hex]
    | some sub => simp only [hex, hsub sub hex]

/-- Witness for C2's amended theorem: brace-free commentary followed by a
JSON object parses to exactly that object via stage two. -/
theorem parse_two_stage_witness :
    parseModelText "note \x7b\"k\":1\x7d" = .ok (.obj [("k", .num "1")]) := by
  exact (parse_two_stage "note \x7b\"k\":1\x7d").2.1 "note " "\x7b\"k\":1\x7d"
    (.obj [("k", .num "1")]) rfl rfl (by decide) rfl rfl rfl

theorem length_insertTsDesc (e : HistoryEntry) (l : List HistoryEntry) :
    (insertTsDesc e l).length = l.length + 1 := by
  induction l with
  | nil => rfl
  | cons x rest ih =>
      simp only [insertTsDesc]
      split
      · simp [ih]
      · simp

theorem length_sortTsDesc (l : List HistoryEntry) :
    (sortTsDesc l).length = l.length := by
  suffices h : ∀ acc : List HistoryEntry,
      (l.foldl (fun acc e => insertTsDesc e acc) acc).length =
        acc.length + l.length by
    simpa [sortTsDesc] using h []
  induction l with
  | nil => intro acc; simp
  | cons x rest ih =>
      intro acc
      simp only [List.foldl_cons]
      rw [ih (insertTsDesc x acc), length_insertTsDesc]
      simp only [List.length_cons]
      omega

/-- Euclidean `(n + l - 1) / l` is the ceiling of the exact division, for a
positive divisor. -/
theorem ceil_div_eq (n : Nat) (l : Int) (hl : 1 ≤ l) :
    ((n : Int) + l - 1) / l = ⌈(n : ℚ) / (l : ℚ)⌉ := by
  have hl0 : (0 : Int) < l := hl
  have hlq : (0 : ℚ) < (l : ℚ) := by exact_mod_cast hl0
  symm
  rw [Int.ceil_eq_iff]
  constructor
  · rw [lt_div_iff₀ hlq]
    have h1 : ((n : Int) + l - 1) / l * l ≤ (n : Int) + l - 1 :=
      Int.ediv_mul_le _ hl0.ne'
    have h2 : (((n : Int) + l - 1) / l - 1) * l < (n : Int) := by nlinarith
    exact_mod_cast h2
  · rw [div_le_iff₀ hlq]
    have h2 : (n : Int) + l - 1 < (((n : Int) + l - 1) / l + 1) * l :=
      Int.lt_ediv_add_one_mul_self _ hl0
    have h3 : (n : Int) ≤ (((n : Int) + l - 1) / l) * l := by nlinarith
    exact_mod_cast h3

/-- C4 counterexample: for the query value `limit=x`, `parseInt` yields NaN,
`Math.max(1, Math.min(50, NaN))` is NaN, so the effective limit is not in
[1,50] and the returned `totalPages` is NaN rather than
`max(1, ceil(total/limit))` — here with one matching entry, for which every
limit in [1,50] would give `totalPages = 1`. -/
theorem history_nan_limit_cex :
    effLimit (some "x") = none ∧
    (historyHandler [⟨"a", "H", 1, .null, .null⟩] "H" none (some "x")).totalPages
      = none ∧
    (historyHandler [⟨"a", "H", 1, .null, .null⟩] "H" none (some "x")).total = 1 :=
  ⟨rfl, rfl, rfl⟩

/-- C4 as amended: whenever `parseInt` of the (defaulted) `page` and
`limit` query values yields a number, the effective limit lies in [1,50],
the effective page is an integer ≥ 1, and `totalPages` equals
`max(1, ceil(total/limit))` where `total` counts the requester's entries;
when `parseInt` yields NaN, the NaN propagates to the effective value. -/
theorem history_pagination_clamped (history : List HistoryEntry)
    (userHash : String) (pageQ limitQ : Option String) (p l : Int)
    (hp : jsParseInt (queryDefault pageQ "1") = some p)
    (hl : jsParseInt (queryDefault limitQ "10") = some l) :
    ∃ P L, effPage pageQ = some P ∧ 1 ≤ P ∧
      effLimit limitQ = some L ∧ 1 ≤ L ∧ L ≤ 50 ∧
      (historyHandler history userHash pageQ limitQ).page = some P ∧
      (historyHandler history userHash pageQ limitQ).total =
        (history.filter (fun e => e.userHash = userHash)).length ∧
      (historyHandler history userHash pageQ limitQ).totalPages =
        some (max 1
          ⌈((history.filter (fun e => e.userHash = userHash)).length : ℚ) / (L : ℚ)⌉) := by
  refine ⟨max 1 p, max 1 (min 50 l), ?_, le_max_left 1 p, ?_, le_max_left _ _,
    ?_, ?_, ?_, ?_⟩
  · simp [effPage, hp, jsMaxOne]
  · simp [effLimit, hl, clampLimit]
  · exact max_le (by norm_num) (min_le_left 50 l)
  · simp [historyHandler, effPage, hp, jsMaxOne]
  · simp [historyHandler, length_sortTsDesc]
  · have hLpos : 1 ≤ max 1 (min 50 l) := le_max_left _ _
    simp only [historyHandler, effLimit, hl, clampLimit, totalPagesOf,
      length_sortTsDesc]
    rw [ceil_div_eq _ _ hLpos]

/-- Witness for C4's amended theorem at `page` absent, `limit=3`, one
matching entry. -/
theorem history_pagination_clamped_witness :
    ∃ P L, effPage none = some P ∧ 1 ≤ P ∧
      effLimit (some "3") = some L ∧ 1 ≤ L ∧ L ≤ 50 ∧
      (historyHandler [⟨"a", "H", 1, .null, .null⟩] "H" none (some "3")).page = some P ∧
      (historyHandler [⟨"a", "H", 1, .null, .null⟩] "H" none (some "3")).total =
        (([⟨"a", "H", 1, .null, .null⟩] : List HistoryEntry).filter
          (fun e => e.userHash = "H")).length ∧
      (historyHandler [⟨"a", "H", 1, .null, .null⟩] "H" none (some "3")).totalPages =
        some (max 1
          ⌈((([⟨"a", "H", 1, .null, .null⟩] : List HistoryEntry).filter
              (fun e => e.userHash = "H")).length : ℚ) / (L : ℚ)⌉) :=
  history_pagination_clamped [⟨"a", "H", 1, .null, .null⟩] "H" none (some "3")
    1 3 rfl rfl

/-- C6 counterexample: (1) a model text whose parsed payload *contains* an
`itinerary` field with value `null` appends nothing (the code tests
truthiness of the field, not its presence), so "appended iff the payload
contains an itinerary field" fails; (2) with a truthy `itinerary`, the
stored snippet is the content of the *last* message — here the assistant's
`"b"` — not the most recent *user* message content `"a"`. -/
theorem chat_append_cex :
    jsonParse "\x7b\"itinerary\":null\x7d" = some (.obj [("itinerary", .null)]) ∧
    (chatHandler id
        (some (.arr [.obj [("role", .str "user"), ("content", .str "a")],
                     .obj [("role", .str "assistant"), ("content", .str "b")]]))
        none (some "\x7b\"itinerary\":null\x7d") "H" 1 "r" []).history = [] ∧
    (chatHandler id
        (some (.arr [.obj [("role", .str "user"), ("content", .str "a")],
                     .obj [("role", .str "assistant"), ("content", .str "b")]]))
        none (some "\x7b\"itinerary\":null\x7d") "H" 1 "r" []).status = 200 ∧
    ((chatHandler id
        (some (.arr [.obj [("role", .str "user"), ("content", .str "a")],
                     .obj [("role", .str "assistant"), ("content", .str "b")]]))
        none (some "\x7b\"itinerary\":true\x7d") "H" 1 "r" []).history.map
      (fun e => e.request.prop "snippet")) = [some (.str "b")] :=
  ⟨rfl, rfl, rfl, rfl⟩

/-- C6 as amended: for every /api/chat request whose model call returns
non-empty text, a JSON parse failure is never an error — the response is
200 with the raw text and a null `parsed` field — and a history entry is
appended iff the parsed payload is truthy with a *truthy* `itinerary`
field; the appended record holds the chat marker, the optional group
context, and the content of the *last* message of the conversation
(whatever its role), never the full conversation. -/
theorem chat_parse_tolerant (sanitize : String → String) (ms : List Json)
    (sanitized : List ChatMsg) (group : Option Json) (text : String)
    (userHash : String) (nowMs : Nat) (rand : String)
    (history : List HistoryEntry)
    (hsan : ms.mapM (sanitizeMsg sanitize) = some sanitized)
    (htext : text ≠ "") :
    (chatHandler sanitize (some (.arr ms)) group (some text) userHash nowMs
        rand history).status = 200 ∧
    (chatHandler sanitize (some (.arr ms)) group (some text) userHash nowMs
        rand history).body =
      .obj [("text", .str text), ("parsed", (jsonParse text).getD .null)] ∧
    (chatAppends (jsonParse text) = false →
       (chatHandler sanitize (some (.arr ms)) group (some text) userHash nowMs
          rand history).history = history) ∧
    (∀ p, jsonParse text = some p → p.truthy = true →
       optTruthy (p.prop "itinerary") = true →
       (chatHandler sanitize (some (.arr ms)) group (some text) userHash nowMs
          rand history).history = history ++
         [{ id := genId nowMs rand, userHash := userHash, timestamp := nowMs,
            request := .obj ([("chat", .bool true)] ++
              (match group with | some g => [("group", g)] | none => []) ++
              [("snippet", .str (lastSnippet sanitized))]),
            response := p }]) := by
  have hred : chatHandler sanitize (some (.arr ms)) group (some text) userHash
      nowMs rand history =
      (if chatAppends (jsonParse text) then
        ⟨200, .obj [("text", .str text), ("parsed", (jsonParse text).getD .null)],
         true, history ++
           [{ id := genId nowMs rand, userHash := userHash, timestamp := nowMs,
              request := .obj ([("chat", .bool true)] ++
                (match group with | some g => [("group", g)] | none => []) ++
                [("snippet", .str (lastSnippet sanitized))]),
              response := (jsonParse text).getD .null }]⟩
      else
        ⟨200, .obj [("text", .str text), ("parsed", (jsonParse text).getD .null)],
         true, history⟩ : ChatOut) := by
    simp only [chatHandler, hsan]
    rw [if_neg htext]
  refine ⟨?_, ?_, ?_, ?_⟩
  · rw [hred]; split <;> rfl
  · rw [hred]; split <;> rfl
  · intro hfalse
    rw [hred, if_neg (by simp [hfalse])]
  · intro p hj htr hit
    have happ : chatAppends (jsonParse text) = true := by
      simp [chatAppends, hj, htr, hit]
    rw [hred, if_pos happ, hj]
    rfl

/-- Witness for C6's amended theorem: free-form chat text that is not JSON
still yields a 200 with `parsed: null` and appends nothing. -/
theorem chat_parse_tolerant_witness :
    (chatHandler id
        (some (.arr [.obj [("role", .str "user"), ("content", .str "hola")]]))
        none (some "charla libre") "H" 1 "r" []).status = 200 ∧
    (chatHandler id
        (some (.arr [.obj [("role", .str "user"), ("content", .str "hola")]]))
        none (some "charla libre") "H" 1 "r" []).body =
      .obj [("text", .str "charla libre"), ("parsed", .null)] ∧
    (chatHandler id
        (some (.arr [.obj [("role", .str "user"), ("content", .str "hola")]]))
        none (some "charla libre") "H" 1 "r" []).history = [] := by
  have h := chat_parse_tolerant id
    [.obj [("role", .str "user"), ("content", .str "hola")]]
    [⟨some (.str "user"), .str "hola"⟩] none "charla libre" "H" 1 "r" []
    rfl (by decide)
  exact ⟨h.1, h.2.1, h.2.2.1 rfl⟩

/-- C7, evaluated at the failing input: with eleven distinct destinations in
the store, the first /api/trending call of the day responds with
`list.slice(0,10)` — 10 items — but a same-day cache hit responds with the
full cached list of 11 items, exceeding the promised 10. -/
theorem trending_cache_hit_overflow :
    (trendingHandler ⟨none, none⟩ demoStore "D").results.length = 10 ∧
    (trendingHandler (trendingHandler ⟨none, none⟩ demoStore "D").cache
        demoStore "D").computed = false ∧
    (trendingHandler (trendingHandler ⟨none, none⟩ demoStore "D").cache
        demoStore "D").results.length = 11 :=
  ⟨rfl, rfl, rfl⟩

/-- C8, evaluated at the failing input: the banner cache behaves as claimed
(a second same-day call returns the identical text without invoking the
model), but the trending endpoint's two same-day responses differ — the
computation path responds with the first 10 items while the cache-hit path
responds with the full stored list — refuting "two calls within the same
day yield the identical value". -/
theorem cache_same_day_value_cex :
    (bannerHandler (bannerHandler ⟨none, none⟩ (some "hola") "D").cache
        (some "otra") "D").text =
      (bannerHandler ⟨none, none⟩ (some "hola") "D").text ∧
    (bannerHandler (bannerHandler ⟨none, none⟩ (some "hola") "D").cache
        (some "otra") "D").modelCalled = false ∧
    (trendingHandler (trendingHandler ⟨none, none⟩ demoStore "D").cache
        demoStore "D").computed = false ∧
    (trendingHandler ⟨none, none⟩ demoStore "D").results ≠
      (trendingHandler (trendingHandler ⟨none, none⟩ demoStore "D").cache
          demoStore "D").results :=
  ⟨rfl, rfl, rfl, by decide⟩

theorem charVal36_digitChar36 : ∀ d : Nat, d < 36 → charVal36 (digitChar36 d) = d := by
  decide

theorem digitChar36_ne_dash : ∀ d : Nat, d < 36 → digitChar36 d ≠ '-' := by
  decide

theorem map_digitChar36_inj :
    ∀ l1 l2 : List Nat, (∀ d ∈ l1, d < 36) → (∀ d ∈ l2, d < 36) →
      l1.map digitChar36 = l2.map digitChar36 → l1 = l2 := by
  intro l1
  induction l1 with
  | nil => intro l2 _ _ h; cases l2 <;> simp_all
  | cons d rest ih =>
      intro l2 h1 h2 h
      cases l2 with
      | nil => simp at h
      | cons d2 rest2 =>
          simp only [List.map_cons, List.cons.injEq] at h
          have hd : d = d2 := by
            have := congrArg charVal36 h.1
            rwa [charVal36_digitChar36 d (h1 d (by simp)),
                 charVal36_digitChar36 d2 (h2 d2 (by simp))] at this
          subst hd
          rw [ih rest2 (fun x hx => h1 x (by simp [hx]))
              (fun x hx => h2 x (by simp [hx])) h.2]

/-- Little-endian base-36 valuation, the inverse of `base36Go`. -/
def ofBase36 : List Nat → Nat
  | [] => 0
  | d :: rest => d + 36 * ofBase36 rest

theorem ofBase36_go : ∀ fuel n : Nat, n ≤ fuel → ofBase36 (base36Go fuel n) = n := by
  intro fuel
  induction fuel with
  | zero => intro n hn; interval_cases n; rfl
  | succ fuel ih =>
      intro n hn
      by_cases h0 : n = 0
      · simp [base36Go, h0, ofBase36]
      · have hdiv : n / 36 ≤ fuel := by
          have h1 : n / 36 < n := Nat.div_lt_self (Nat.pos_of_ne_zero h0) (by norm_num)
          omega
        simp only [base36Go, if_neg h0, ofBase36, ih _ hdiv]
        omega

theorem base36Go_lt : ∀ fuel n : Nat, ∀ d ∈ base36Go fuel n, d < 36 := by
  intro fuel
  induction fuel with
  | zero => intro n d hd; simp [base36Go] at hd
  | succ fuel ih =>
      intro n d hd
      by_cases h0 : n = 0
      · simp [base36Go, h0] at hd
      · simp only [base36Go, if_neg h0, List.mem_cons] at hd
        rcases hd with rfl | hd
        · exact Nat.mod_lt n (by norm_num)
        · exact ih _ d hd

theorem toBase36_no_dash (n : Nat) : ∀ c ∈ (toBase36 n).toList, c ≠ '-' := by
  intro c hc
  unfold toBase36 at hc
  by_cases hn : n = 0
  · rw [if_pos hn] at hc
    simp at hc
    simp [hc]
  · rw [if_neg hn] at hc
    simp only [String.toList] at hc
    obtain ⟨d, hd, rfl⟩ := List.mem_map.mp hc
    exact digitChar36_ne_dash d (base36Go_lt n n d (List.mem_reverse.mp hd))

theorem toBase36_inj (m n : Nat) (hm : 0 < m) (hn : 0 < n)
    (h : toBase36 m = toBase36 n) : m = n := by
  unfold toBase36 at h
  rw [if_neg hm.ne', if_neg hn.ne'] at h
  have hlist : ((base36Digits m).reverse).map digitChar36 =
      ((base36Digits n).reverse).map digitChar36 := by
    have hthis := congrArg String.toList h
    simpa using hthis
  have hrev : (base36Digits m).reverse = (base36Digits n).reverse :=
    map_digitChar36_inj _ _
      (fun d hd => base36Go_lt m m d (List.mem_reverse.mp hd))
      (fun d hd => base36Go_lt n n d (List.mem_reverse.mp hd))
      hlist
  have hdig : base36Digits m = base36Digits n :=
    List.reverse_injective hrev
  calc m = ofBase36 (base36Go m m) := (ofBase36_go m m le_rfl).symm
    _ = ofBase36 (base36Go n n) := by rw [show base36Go m m = base36Go n n from hdig]
    _ = n := ofBase36_go n n le_rfl

theorem append_dash_inj :
    ∀ a b x y : List Char, (∀ c ∈ a, c ≠ '-') → (∀ c ∈ b, c ≠ '-') →
      a ++ '-' :: x = b ++ '-' :: y → a = b ∧ x = y := by
  intro a
  induction a with
  | nil =>
      intro b x y _ hb h
      cases b with
      | nil => simpa using h
      | cons c bs =>
          simp only [List.nil_append, List.cons_append, List.cons.injEq] at h
          exact absurd h.1.symm (hb c (by simp))
  | cons c as ih =>
      intro b x y ha hb h
      cases b with
      | nil =>
          simp only [List.nil_append, List.cons_append, List.cons.injEq] at h
          exact absurd h.1 (ha c (by simp))
      | cons c2 bs =>
          simp only [List.cons_append, List.cons.injEq] at h
          obtain ⟨rfl, heq⟩ := h
          obtain ⟨h1, h2⟩ := ih bs x y (fun z hz => ha z (by simp [hz]))
            (fun z hz => hb z (by simp [hz])) heq
          exact ⟨by rw [h1], h2⟩

/-- C9 counterexample: two distinct entries — one from the plan flow for
hash `H1`, one from the chat flow for hash `H2` — created in the same
millisecond with the same random suffix receive the identical id
`"5-r"`, so the id scheme does produce the same id for two entries. -/
theorem id_collision_cex :
    ((planHandler id [("destination", .str "Tokyo")] (some "\x7b\x7d")
        "H1" 5 "r" []).history.map (fun e => e.id)) = ["5-r"] ∧
    ((chatHandler id
        (some (.arr [.obj [("role", .str "user"), ("content", .str "Roma")]]))
        none (some "\x7b\"itinerary\":[1]\x7d") "H2" 5 "r" []).history.map
      (fun e => e.id)) = ["5-r"] ∧
    ((planHandler id [("destination", .str "Tokyo")] (some "\x7b\x7d")
        "H1" 5 "r" []).history.map (fun e => e.userHash)) = ["H1"] ∧
    ((chatHandler id
        (some (.arr [.obj [("role", .str "user"), ("content", .str "Roma")]]))
        none (some "\x7b\"itinerary\":[1]\x7d") "H2" 5 "r" []).history.map
      (fun e => e.userHash)) = ["H2"] ∧
    "H1" ≠ "H2" :=
  ⟨rfl, rfl, rfl, rfl, by decide⟩

/-- C9 as amended: two entries receive the same id **iff** they were
created in the same `Date.now()` millisecond with the same
`Math.random().toString(36).slice(2,8)` suffix; whenever the millisecond or
the suffix differs, the ids differ (timestamps are positive, as `Date.now()`
values are). -/
theorem id_scheme_collision_iff (t1 t2 : Nat) (r1 r2 : String)
    (ht1 : 0 < t1) (ht2 : 0 < t2) :
    genId t1 r1 = genId t2 r2 ↔ (t1 = t2 ∧ r1 = r2) := by
  constructor
  · intro h
    have hl : (toBase36 t1).toList ++ '-' :: r1.toList =
        (toBase36 t2).toList ++ '-' :: r2.toList := by
      have hthis := congrArg String.toList h
      simp only [genId, toList_append] at hthis
      simpa [List.append_assoc] using hthis
    obtain ⟨hbase, hr⟩ := append_dash_inj _ _ _ _
      (toBase36_no_dash t1) (toBase36_no_dash t2) hl
    exact ⟨toBase36_inj t1 t2 ht1 ht2 (congrArg String.mk hbase),
      congrArg String.mk hr⟩
  · rintro ⟨rfl, rfl⟩
    rfl

/-- Witness for C9's amended theorem: different milliseconds give different
ids, equal pairs give equal ids. -/
theorem id_scheme_collision_iff_witness :
    genId 1 "a" ≠ genId 2 "a" ∧ genId 7 "x" = genId 7 "x" := by
  constructor
  · intro h
    have hc := (id_scheme_collision_iff 1 2 "a" "a" (by decide) (by decide)).mp h
    exact absurd hc.1 (by decide)
  · exact (id_scheme_collision_iff 7 7 "x" "x" (by decide) (by decide)).mpr ⟨rfl, rfl⟩

theorem mapM_sanitize_cons (f : String → String) (m : Json) (ms : List Json)
    (sanitized : List ChatMsg)
    (h : (m :: ms).mapM (sanitizeMsg f) = some sanitized) :
    ∃ c rest, sanitizeMsg f m = some c ∧ ms.mapM (sanitizeMsg f) = some rest ∧
      sanitized = c :: rest := by
  rw [List.mapM_cons] at h
  cases hm : sanitizeMsg f m with
  | none => rw [hm] at h; simp at h
  | some c =>
      rw [hm] at h
      cases hrest : ms.mapM (sanitizeMsg f) with
      | none => rw [hrest] at h; simp at h
      | some rest =>
          rw [hrest] at h
          simp at h
          exact ⟨c, rest, rfl, rfl, h.symm⟩

theorem sanitized_fields (f : String → String) :
    ∀ (ms : List Json) (sanitized : List ChatMsg),
      ms.mapM (sanitizeMsg f) = some sanitized →
      sanitized.map ChatMsg.role = ms.map (fun m => m.prop "role") ∧
      sanitized.map ChatMsg.content = ms.map (fun m =>
        match m.prop "content" with
        | some (.str s) => Json.str (f s)
        | _ => .str "") := by
  intro ms
  induction ms with
  | nil =>
      intro sanitized h
      simp only [List.mapM_nil, Option.pure_def, Option.some.injEq] at h
      subst h
      simp
  | cons m rest ih =>
      intro sanitized h
      obtain ⟨c, cs, hc, hrest, rfl⟩ := mapM_sanitize_cons f m rest sanitized h
      obtain ⟨ih1, ih2⟩ := ih cs hrest
      cases m <;> simp only [sanitizeMsg, Option.some.injEq] at hc
      case null => exact absurd hc (by simp)
      all_goals
        subst hc
        simp only [List.map_cons, ih1, ih2]
        exact ⟨trivial, trivial⟩

/-- C10: in the chat flow, each message's `role` is forwarded to the model
provider verbatim — the conversation's roles are exactly the fixed
prepended system role followed by every client-supplied role unchanged, for
*any* sanitizer — while only `content` passes through the sanitizer; in
particular a client message with role `"system"` is sent alongside the
fixed prepended system instruction. -/
theorem chat_roles_verbatim (sanitize : String → String) (ms : List Json)
    (sanitized : List ChatMsg) (group : Option Json)
    (hsan : ms.mapM (sanitizeMsg sanitize) = some sanitized) :
    (chatConversation group sanitized).map ChatMsg.role =
      some (.str "system") :: ms.map (fun m => m.prop "role") ∧
    (chatConversation group sanitized).map ChatMsg.content =
      .str (chatSystemContent group) :: ms.map (fun m =>
        match m.prop "content" with
        | some (.str s) => Json.str (sanitize s)
        | _ => .str "") ∧
    (∀ m ∈ ms, m.prop "role" ∈ (chatConversation group sanitized).map ChatMsg.role) := by
  obtain ⟨h1, h2⟩ := sanitized_fields sanitize ms sanitized hsan
  refine ⟨?_, ?_, ?_⟩
  · simp only [chatConversation, List.map_cons, h1]
  · simp only [chatConversation, List.map_cons, h2]
  · intro m hm
    simp only [chatConversation, List.map_cons, h1]
    exact List.mem_cons_of_mem _ (List.mem_map_of_mem _ hm)

/-- Witness for C10: a client-supplied `"system"` role reaches the model
conversation unchanged, next to the prepended system instruction, while the
content is replaced by the sanitizer's output. -/
theorem chat_roles_verbatim_witness :
    (chatConversation none
        [⟨some (.str "system"), .str "SAN"⟩]).map ChatMsg.role =
      [some (.str "system"), some (.str "system")] ∧
    (chatConversation none
        [⟨some (.str "system"), .str "SAN"⟩]).map ChatMsg.content =
      [.str (chatSystemContent none), .str "SAN"] := by
  have h := chat_roles_verbatim (fun _ => "SAN")
    [.obj [("role", .str "system"), ("content", .str "x")]]
    [⟨some (.str "system"), .str "SAN"⟩] none rfl
  exact ⟨h.1, h.2.1⟩

end Touria
